import Mathlib

/-!
Shallow embedding of the zip-automation document pipeline
(src/unnamed/part_000, src/index.js): JavaScript string helpers used by
the watchers, the linearized-folder (OCR verification) handler, the
upload-folder handler, the in-memory compression helper, the UploadQueue
class, the folder stability detector, the retry combinator, the batch
folder intake, and a small-step interleaving semantics for the watcher
tasks and the queue drain loop.
-/

namespace ZipAutomation

/-- Index of the last occurrence of a dot in a character list, tracking
the current index while scanning (helper for the node path.extname model). -/
def lastDotAux : List Char → Nat → Option Nat → Option Nat
  | [], _, acc => acc
  | c :: cs, i, acc => lastDotAux cs (i + 1) (if c = '.' then some i else acc)

/-- Model of node path.extname on a basename: the suffix starting at the
last dot, empty when there is no dot or the only dot is the leading
character (hidden files). -/
def extname (s : String) : String :=
  match lastDotAux s.data 0 none with
  | none => ""
  | some 0 => ""
  | some i => String.mk (s.data.drop i)

/-- If pat is an initial segment of l, return the remainder of l after it. -/
def stripAt : List Char → List Char → Option (List Char)
  | [], rest => some rest
  | _ :: _, [] => none
  | p :: ps, c :: cs => if p = c then stripAt ps cs else none

/-- Remove the first occurrence of pat from a character list, the character
level model of the JavaScript String.replace(pat, emptyString) call. -/
def removeFirstAux (pat : List Char) : List Char → List Char
  | [] => []
  | c :: cs =>
    match stripAt pat (c :: cs) with
    | some rest => rest
    | none => c :: removeFirstAux pat cs

/-- JavaScript fileName.replace(pat, emptyString): deletes the first
occurrence of the literal pattern, leaving the string unchanged when the
pattern does not occur. -/
def jsReplaceFirst (s pat : String) : String :=
  String.mk (removeFirstAux pat.data s.data)

/-- Whether the first list is an initial segment of the second. -/
def hasInit : List Char → List Char → Bool
  | [], _ => true
  | _ :: _, [] => false
  | p :: ps, c :: cs => (p == c) && hasInit ps cs

/-- JavaScript filePath.toLowerCase().endsWith(".pdf"), the file filter
used by every watcher in the source, at the character level. -/
def jsEndsWithPdf (s : String) : Bool :=
  hasInit ".pdf".data.reverse (s.data.map Char.toLower).reverse

/-- The identifier the linearized watcher compares the OCR barcode against:
fileName.replace(fileExtension, emptyString) in the source, which removes
the FIRST occurrence of the extension substring. -/
def expectedId (fileName : String) : String :=
  jsReplaceFirst fileName (extname fileName)

/-- Modelled from the spec words: the filename stem with the trailing
extension stripped, used to compare the source computation against the
specification sentence about the filename stem. -/
def specStem (fileName : String) : String :=
  String.mk (fileName.data.take (fileName.data.length - (extname fileName).data.length))

/-- One row of the structured audit log (scan-log.csv): status, action,
message and the file column. Timestamp and operator identity are dropped
as pure configuration. -/
structure CsvRec where
  status : String
  action : String
  message : String
  file : String
deriving DecidableEq, Repr

/-- The directory a handler moved a document into. -/
inductive MoveTarget
  | uploadFolder
  | errorFolder
  | systemUploaded
  | uploadError
deriving DecidableEq, Repr

/-- Simplified OCR response payload: the data.barcode field of the JSON
body; none models a missing (undefined) field, which is falsy in the
source condition. -/
structure OcrData where
  barcode : Option String
deriving DecidableEq, Repr

/-- The parsed JSON of the recognition collaborator: the top level data
field; none models a response the source rejects as malformed. -/
structure OcrResp where
  data : Option OcrData
deriving DecidableEq, Repr

/-- Result of one invocation of the linearized-folder add handler. -/
structure LinResult where
  ocrCalled : Bool
  moved : Option MoveTarget
  recs : List CsvRec
deriving DecidableEq, Repr

/-- The Got field of the mismatch audit message:
result.data.barcode or the string none when the barcode is falsy. -/
def gotStr : Option String → String
  | none => "none"
  | some s => if s = "" then "none" else s

/-- Pass record written when the barcode matches and the move succeeded. -/
def matchRec (fileName bc : String) : CsvRec :=
  ⟨"Pass", "OCR Check & Move",
    "Barcode matched: " ++ bc ++ ", moved to upload folder", fileName⟩

/-- Fail record written on barcode mismatch; its message contains both the
expected identifier and the actual one returned by the collaborator. -/
def mismatchRec (fileName expected got : String) : CsvRec :=
  ⟨"Fail", "OCR Check",
    "Barcode mismatch or not found. Expected: " ++ expected ++ ", Got: " ++ got,
    fileName⟩

/-- Fail record written by the catch block of the linearized handler. -/
def linCatchRec (fileName msg : String) : CsvRec :=
  ⟨"Fail", "Process File", msg, fileName⟩

/-- The add handler of setupLinearizedWatcher in src/unnamed/part_000
(lines 775-872). Parameters stand for the suspension results: online is
the reachability probe, rb the result of reading the file (none when the
read throws), ocr the outcome of the retried OCR call together with JSON
parsing, moveOk whether the attempted rename succeeds. -/
def linearizedAdd (online : Bool) (fileName : String) (rb : Option (List Nat))
    (ocr : Except String OcrResp) (moveOk : Bool) : LinResult :=
  if jsEndsWithPdf fileName = false then ⟨false, none, []⟩
  else if online = false then ⟨false, none, []⟩
  else
    match rb with
    | none => ⟨false, none, []⟩
    | some _ =>
      match ocr with
      | Except.error e =>
        ⟨true, if moveOk then some MoveTarget.errorFolder else none,
          [linCatchRec fileName e]⟩
      | Except.ok resp =>
        match resp.data with
        | none =>
          ⟨true, if moveOk then some MoveTarget.errorFolder else none,
            [linCatchRec fileName "Error: Invalid response from OCR API"]⟩
        | some d =>
          match d.barcode with
          | some bc =>
            if 0 < bc.length ∧ expectedId fileName = bc then
              ⟨true, if moveOk then some MoveTarget.uploadFolder else none,
                if moveOk then [matchRec fileName bc] else []⟩
            else
              ⟨true, if moveOk then some MoveTarget.errorFolder else none,
                if moveOk then
                  [mismatchRec fileName (expectedId fileName) (gotStr (some bc))]
                else []⟩
          | none =>
            ⟨true, if moveOk then some MoveTarget.errorFolder else none,
              if moveOk then
                [mismatchRec fileName (expectedId fileName) (gotStr none)]
              else []⟩

/-- Result of one invocation of the upload-folder add handler. -/
structure UpResult where
  uploadCalled : Bool
  submitted : Option (List Nat)
  moved : Option MoveTarget
  recs : List CsvRec
deriving DecidableEq, Repr

/-- The add handler of setupUploadWatcher in src/unnamed/part_000
(lines 934-1031). rb is the file read result, comp the outcome of
compressPDFInMemory, up the outcome of the retried upload call together
with JSON parsing, moveOk whether the attempted rename succeeds. The
handler does not consult the upload queue. -/
def uploadAdd (online : Bool) (fileName : String) (rb : Option (List Nat))
    (comp : Except String (List Nat)) (up : Except String Unit)
    (moveOk : Bool) : UpResult :=
  if jsEndsWithPdf fileName = false then ⟨false, none, none, []⟩
  else if online = false then ⟨false, none, none, []⟩
  else
    match rb with
    | none => ⟨false, none, none, []⟩
    | some fileBuffer =>
      let buf := match comp with
        | Except.ok c => c
        | Except.error _ => fileBuffer
      let infoRec : CsvRec :=
        ⟨"Info", "Upload Started", "Initiating upload to system API", fileName⟩
      match up with
      | Except.ok _ =>
        ⟨true, some buf, if moveOk then some MoveTarget.systemUploaded else none,
          infoRec ::
            (if moveOk then
              [⟨"Pass", "Upload Complete", "File uploaded successfully", fileName⟩]
            else [])⟩
      | Except.error e =>
        ⟨true, some buf, if moveOk then some MoveTarget.uploadError else none,
          infoRec :: [⟨"Fail", "Upload Failed", e, fileName⟩]⟩

/-- Outcome of the external compression step inside compressPDFInMemory:
on success ghostscript wrote the temporary output file and it is read
back; on failure (non-zero exit, missing binary, timeout, or a failing
read of the output) the temporary file may or may not have been left
behind, recorded by leftTemp. -/
inductive CompressOutcome
  | success (bytes : List Nat)
  | failure (leftTemp : Bool)
deriving DecidableEq, Repr

/-- compressPDFInMemory from src/unnamed/part_000 lines 380-394: the
filesystem is the list of existing paths; returns the helper result and
the final filesystem. On success the temp file is read then unlinked; on
failure the catch block unlinks the temp file when it exists and
rethrows. -/
def compressPDFInMemory (fs : List String) (temp : String) :
    CompressOutcome → Except String (List Nat) × List String
  | CompressOutcome.success bytes =>
    let fs1 := temp :: fs
    (Except.ok bytes, fs1.erase temp)
  | CompressOutcome.failure leftTemp =>
    let fs1 := if leftTemp then temp :: fs else fs
    (Except.error "Compression failed",
      if fs1.contains temp then fs1.erase temp else fs1)

/-- In-memory state of the UploadQueue class (src/unnamed/part_000 lines
531-603): the queue Set as an insertion-ordered duplicate-free list, the
processedFiles Set, the isProcessing flag, and the upload folder contents
(the paths fs.existsSync consults). -/
structure QState where
  queue : List String
  processedFiles : List String
  isProcessing : Bool
  fsUpload : List String
deriving DecidableEq, Repr

/-- The loop body of UploadQueue.enqueue: each incoming file is appended
to the queue only when it is in neither the queue nor the processed set. -/
def enqueueFold (processed : List String) : List String → List String → List String
  | q, [] => q
  | q, f :: fs =>
    enqueueFold processed
      (if q.contains f || processed.contains f then q else q ++ [f]) fs

/-- UploadQueue.enqueue (lines 539-552), without the drain trigger, which
the small-step semantics below represents as a separate scheduler step. -/
def enqueue (s : QState) (files : List String) : QState :=
  { s with queue := enqueueFold s.processedFiles s.queue files }

/-- Outcome of the awaited work in one drain cycle of
UploadQueue.processQueue: result success moveOk is a returned value of
uploadToSystem together with whether the following rename succeeded;
thrown models an exception escaping the try body into the catch block. -/
inductive CycleOutcome
  | result (success : Bool) (moveOk : Bool)
  | thrown
deriving DecidableEq, Repr

/-- UploadQueue.processQueue (lines 555-592), with explicit fuel for the
tail recursion performed in the finally block. The oracle gives the
outcome of each cycle. On thrown the catch only logs: the queue keeps the
file and the processed set is unchanged; the finally block always resets
isProcessing and re-enters while the queue is non-empty. -/
def processQueue (oracle : Nat → CycleOutcome) : Nat → QState → QState
  | 0, s => s
  | fuel + 1, s =>
    if s.isProcessing then s
    else
      match s.queue with
      | [] => s
      | p :: rest =>
        let s1 : QState := { s with isProcessing := true }
        let s2 : QState :=
          match oracle fuel with
          | CycleOutcome.thrown => s1
          | CycleOutcome.result true mOk =>
            { s1 with
              fsUpload := if mOk then s1.fsUpload.erase p else s1.fsUpload,
              processedFiles := p :: s1.processedFiles,
              queue := rest }
          | CycleOutcome.result false mOk =>
            { s1 with
              fsUpload :=
                if s1.fsUpload.contains p && mOk then s1.fsUpload.erase p
                else s1.fsUpload,
              processedFiles := p :: s1.processedFiles,
              queue := rest }
        let s3 : QState := { s2 with isProcessing := false }
        if s3.queue.isEmpty then s3 else processQueue oracle fuel s3

/-- State of the waitForFolderToStabilize poll loop (src/unnamed/part_000
lines 183-204) after processing the sample of poll tick n: the pair of
previousCount and stableTime, with previousCount initialised to zero. -/
def folderStabilizeState (counts : Nat → Nat) (interval : Nat) : Nat → Nat × Nat
  | 0 => if counts 0 = 0 then (0, interval) else (counts 0, 0)
  | n + 1 =>
    let st := folderStabilizeState counts interval n
    if counts (n + 1) = st.1 then (st.1, st.2 + interval) else (counts (n + 1), 0)

/-- The stableTime accumulator after poll tick n; the wait resolves at the
first tick where it reaches durationMs. -/
def stableTimeAfter (counts : Nat → Nat) (interval n : Nat) : Nat :=
  (folderStabilizeState counts interval n).2

/-- The count a sample is compared against: the previous sample, with the
virtual initial value zero of previousCount before the first tick. -/
def prevSample (counts : Nat → Nat) : Nat → Nat
  | 0 => 0
  | n + 1 => counts n

/-- Length of the maximal run of consecutive unchanged samples ending at
tick n. -/
def runLen (counts : Nat → Nat) : Nat → Nat
  | 0 => if counts 0 = 0 then 1 else 0
  | n + 1 => if counts (n + 1) = counts n then runLen counts n + 1 else 0

/-- The retryOperation combinator shared by both watchers
(src/unnamed/part_000 lines 752-761 and 902-911): i is the zero-based
index of the next attempt, the last Nat counts remaining attempts.
Returns the operation result, the total number of attempts made (as the
index after the last attempt) and the list of backoff delays slept, each
RETRY_DELAY times the one-based number of the attempt that just failed.
none models the remaining count zero, where the loop body never runs. -/
def retryAux {Er A : Type} (op : Nat → Except Er A) (base i : Nat) :
    Nat → Option (Except Er A × Nat × List Nat)
  | 0 => none
  | 1 =>
    match op i with
    | Except.ok a => some (Except.ok a, i + 1, [])
    | Except.error e => some (Except.error e, i + 1, [])
  | r + 2 =>
    match op i with
    | Except.ok a => some (Except.ok a, i + 1, [])
    | Except.error _ =>
      match retryAux op base (i + 1) (r + 1) with
      | some (res, n, ds) => some (res, n, base * (i + 1) :: ds)
      | none => none

/-- retryOperation(operation, retries) with RETRY_DELAY = base. -/
def retryOperation {Er A : Type} (op : Nat → Except Er A) (base retries : Nat) :
    Option (Except Er A × Nat × List Nat) :=
  retryAux op base 0 retries

/-- Whether an Except value is a success. -/
def isOkE {Er A : Type} : Except Er A → Bool
  | Except.ok _ => true
  | Except.error _ => false

/-- The CSV action string of the per-file move inside
moveToDestinationFolder (destination LINEARIZED_FOLDER). -/
def moveAction : String := "Move to LINEARIZED_FOLDER"

/-- Result of the per-file loop of moveToDestinationFolder
(src/unnamed/part_000 lines 291-321): the remaining contents of the batch
directory, the audit records written, and whether an exception escaped
(generateAndSaveReport rethrows when the file disappeared), aborting the
rest of the loop. -/
structure MoveRun where
  remaining : List String
  recs : List CsvRec
  aborted : Bool
deriving DecidableEq, Repr

/-- The loop of moveToDestinationFolder: for each pdf, generate the report
(rOk false models a rethrown report failure, which aborts the whole
call), then try the rename (mOk); a failing rename is logged Fail and the
file stays in the directory, a successful one removes it. -/
def movePdfs (rOk mOk : String → Bool) : List String → List String → MoveRun
  | [], contents => ⟨contents, [], false⟩
  | f :: rest, contents =>
    if rOk f = false then ⟨contents, [], true⟩
    else if mOk f then
      let r := movePdfs rOk mOk rest (contents.erase f)
      ⟨r.remaining, ⟨"Pass", moveAction, "Moved", f⟩ :: r.recs, r.aborted⟩
    else
      let r := movePdfs rOk mOk rest contents
      ⟨r.remaining, ⟨"Fail", moveAction, "Move failed", f⟩ :: r.recs, r.aborted⟩

/-- Outcome of handleNewFolder on a batch directory. -/
structure FolderResult where
  removed : Bool
  remaining : List String
  recs : List CsvRec
  aborted : Bool
deriving DecidableEq, Repr

/-- Audit record written by cleanupOriginalFolder, whose rmdirSync call
succeeds exactly when the directory is empty. -/
def cleanupRec (ok : Bool) : CsvRec :=
  if ok then ⟨"Pass", "Cleanup", "Original folder removed", ""⟩
  else ⟨"Fail", "Cleanup", "Cleanup failed", ""⟩

/-- handleNewFolder together with stabilizeAndPrepareFolder
(src/unnamed/part_000 lines 631-656 and 348-369). contents is the
directory listing once stable. With no pdfs: Fail record, cleanup of the
directory, then the null return makes the destructuring in
handleNewFolder throw, producing the catch record; terminal, nothing is
retried. With pdfs: per-file report and move, then cleanup, which removes
the directory exactly when it ended up empty. -/
def handleNewFolder (contents : List String) (rOk mOk : String → Bool) :
    FolderResult :=
  let introRec : CsvRec := ⟨"Info", "Folder Detected", "", ""⟩
  let pdfs := contents.filter (fun f => jsEndsWithPdf f)
  if pdfs.isEmpty then
    let removedOk := contents.isEmpty
    ⟨removedOk, contents,
      [introRec, ⟨"Fail", "No PDFs", "No PDF files found", ""⟩,
        cleanupRec removedOk,
        ⟨"Fail", "Process Folder", "TypeError: null destructuring", ""⟩],
      true⟩
  else
    let foundRec : CsvRec := ⟨"Pass", "PDFs Found", "", ""⟩
    let r := movePdfs rOk mOk pdfs contents
    if r.aborted then
      ⟨false, r.remaining,
        introRec :: foundRec :: foundRec :: r.recs ++
          [⟨"Fail", "Process Folder", "Report generation failed", ""⟩],
        true⟩
    else
      let removedOk := r.remaining.isEmpty
      ⟨removedOk, r.remaining,
        introRec :: foundRec :: foundRec :: r.recs ++ [cleanupRec removedOk],
        false⟩

/-- Phase of an upload-watcher add handler task: checking covers the
synchronous suffix test plus the awaited connectivity, read and
compression steps before the fetch; uploading means its upload request is
in flight. -/
inductive WPhase
  | checking
  | uploading
deriving DecidableEq, Repr

/-- Drain cycle outcome for the small-step semantics, mirroring
CycleOutcome. -/
inductive DrainOutcome
  | success (moveOk : Bool)
  | failure (moveOk : Bool)
  | thrown
deriving DecidableEq, Repr

/-- Global state of the cooperative scheduler around the upload folder:
the upload folder contents, the UploadQueue fields, the uploadToSystem
calls currently in flight on behalf of the drain loop, and the watcher
handler tasks. -/
structure Sys where
  online : Bool
  fsUpload : List String
  queued : List String
  processed : List String
  isProcessing : Bool
  drainInFlight : List String
  tasks : List (String × WPhase)
deriving DecidableEq, Repr

/-- Effect of one finished drain cycle on the queue state, mirroring the
branches of processQueue: on success the file is renamed (when the rename
succeeds) and marked processed; on failure it is moved when still present
and marked processed regardless; the queue entry is deleted in both; a
thrown cycle changes nothing. -/
def applyDrainOutcome (s : Sys) (p : String) : DrainOutcome → Sys
  | DrainOutcome.success mOk =>
    { s with fsUpload := if mOk then s.fsUpload.erase p else s.fsUpload,
             processed := p :: s.processed,
             queued := s.queued.erase p }
  | DrainOutcome.failure mOk =>
    { s with fsUpload :=
        if s.fsUpload.contains p && mOk then s.fsUpload.erase p else s.fsUpload,
             processed := p :: s.processed,
             queued := s.queued.erase p }
  | DrainOutcome.thrown => s

/-- The finally block of processQueue: reset isProcessing and, when the
queue is non-empty, synchronously re-enter the drain, which re-sets the
flag and puts the next head in flight before any other task can run. -/
def drainNext (s : Sys) : Sys :=
  match s.queued with
  | [] => { s with isProcessing := false, drainInFlight := [] }
  | q :: _ => { s with drainInFlight := [q] }

/-- One scheduler step of the interleaved system: chokidar add events
spawn handler tasks; a checking task whose guards pass starts its upload;
guards failing silently drop the task; a finished upload applies its
move; enqueue runs the UploadQueue.enqueue loop; startDrain is the
synchronous part of processQueue up to its first await, guarded by the
isProcessing flag which it atomically sets; finishDrain completes the
awaited cycle and runs the finally block. -/
inductive Step : Sys → Sys → Prop
  | addEvent (s : Sys) (p : String) :
      Step s { s with tasks := (p, WPhase.checking) :: s.tasks }
  | taskStart (s : Sys) (pre post : List (String × WPhase)) (p : String)
      (ht : s.tasks = pre ++ (p, WPhase.checking) :: post)
      (hpdf : jsEndsWithPdf p = true) (hon : s.online = true)
      (hfs : p ∈ s.fsUpload) :
      Step s { s with tasks := pre ++ (p, WPhase.uploading) :: post }
  | taskSkip (s : Sys) (pre post : List (String × WPhase)) (p : String)
      (ht : s.tasks = pre ++ (p, WPhase.checking) :: post)
      (h : jsEndsWithPdf p = false ∨ s.online = false ∨ p ∉ s.fsUpload) :
      Step s { s with tasks := pre ++ post }
  | taskFinish (s : Sys) (pre post : List (String × WPhase)) (p : String)
      (moved : Bool)
      (ht : s.tasks = pre ++ (p, WPhase.uploading) :: post) :
      Step s { s with
               tasks := pre ++ post,
               fsUpload := if moved then s.fsUpload.erase p else s.fsUpload }
  | enqueueEvent (s : Sys) (files : List String) :
      Step s { s with queued := enqueueFold s.processed s.queued files }
  | startDrain (s : Sys) (p : String) (rest : List String)
      (hq : s.queued = p :: rest) (hp : s.isProcessing = false) :
      Step s { s with
               isProcessing := true,
               drainInFlight := p :: s.drainInFlight }
  | finishDrain (s : Sys) (p : String) (o : DrainOutcome)
      (hd : s.drainInFlight = [p]) :
      Step s (drainNext (applyDrainOutcome { s with drainInFlight := [] } p o))

/-- Reachability under the scheduler. -/
def Reach : Sys → Sys → Prop :=
  Relation.ReflTransGen Step

/-- Number of upload requests in flight at an instant: those of the drain loop
plus every watcher task past its fetch. -/
def uploadsInFlight (s : Sys) : Nat :=
  s.drainInFlight.length +
    (s.tasks.filter (fun t => t.2 == WPhase.uploading)).length

/-- Initial state: empty queue, nothing processed, flag clear, no tasks. -/
def initSys (online : Bool) (fsU : List String) : Sys :=
  ⟨online, fsU, [], [], false, [], []⟩

/-- Single-flight invariant of the drain loop: a clear isProcessing flag
means no drain upload is in flight, and at most one ever is. -/
def DrainInv (s : Sys) : Prop :=
  (s.isProcessing = false → s.drainInFlight = []) ∧ s.drainInFlight.length ≤ 1

/-! Theorems. -/

lemma length_pos_of_ne_empty (s : String) (h : s ≠ "") : 0 < s.length := by
  cases s with
  | mk l =>
    cases l with
    | nil => exact absurd rfl h
    | cons c cs => simp [String.length]

/-- C4: if the compression collaborator fails, the upload-folder handler
still performs the upload (compression failure is not fatal) and the
bytes submitted are exactly the original bytes read from the file. -/
theorem compression_fallback (fileName : String) (b : List Nat) (err : String)
    (up : Except String Unit) (mOk : Bool)
    (hpdf : jsEndsWithPdf fileName = true) :
    (uploadAdd true fileName (some b) (Except.error err) up mOk).submitted =
      some b ∧
    (uploadAdd true fileName (some b) (Except.error err) up mOk).uploadCalled =
      true := by
  cases up <;> simp [uploadAdd, hpdf]

/-- Witness for C4 at a concrete input. -/
theorem compression_fallback_witness :
    (uploadAdd true "a.pdf" (some [9, 8]) (Except.error "gs missing")
      (Except.ok ()) true).submitted = some [9, 8] :=
  (compression_fallback "a.pdf" [9, 8] "gs missing" (Except.ok ()) true
    (by decide)).1

/-- C8: when the reachability probe reports offline, neither handler makes
a remote call, neither moves the file, and no audit record is written: the
document stays untouched in its current directory. -/
theorem offline_deferral (fileName : String) (rb : Option (List Nat))
    (ocr : Except String OcrResp) (mOk : Bool) (rb2 : Option (List Nat))
    (comp : Except String (List Nat)) (up : Except String Unit) (mOk2 : Bool) :
    linearizedAdd false fileName rb ocr mOk = ⟨false, none, []⟩ ∧
    uploadAdd false fileName rb2 comp up mOk2 = ⟨false, none, none, []⟩ := by
  constructor <;> simp [linearizedAdd, uploadAdd]

/-- C9: the temporary output file of compressPDFInMemory is gone after the
helper returns, on the success path and on every failure path. -/
theorem compress_no_temp_leak (fs : List String) (temp : String)
    (o : CompressOutcome) (h : temp ∉ fs) :
    temp ∉ (compressPDFInMemory fs temp o).2 := by
  cases o with
  | success bytes =>
    show temp ∉ (temp :: fs).erase temp
    rw [List.erase_cons_head]
    exact h
  | failure leftTemp =>
    cases leftTemp with
    | true =>
      show temp ∉
        (if (temp :: fs).contains temp then (temp :: fs).erase temp
         else temp :: fs)
      split
      · rw [List.erase_cons_head]
        exact h
      · next hcon => exact absurd (by simp) hcon
    | false =>
      show temp ∉ (if fs.contains temp then fs.erase temp else fs)
      split
      · intro hmem
        exact h (List.mem_of_mem_erase hmem)
      · exact h

/-- Witness for C9 at a concrete input. -/
theorem compress_no_temp_leak_witness :
    "tmp1" ∉ (compressPDFInMemory ["x.pdf"] "tmp1"
      (CompressOutcome.failure true)).2 :=
  compress_no_temp_leak ["x.pdf"] "tmp1" (CompressOutcome.failure true)
    (by decide)

/-- C10: every completed call of the drain loop on a state whose
isProcessing flag is clear ends with the flag clear again, for every fuel
bound and every sequence of cycle outcomes including thrown ones: the
finally block always resets the flag. -/
theorem processQueue_resets_flag (oracle : Nat → CycleOutcome) (fuel : Nat)
    (s : QState) (h : s.isProcessing = false) :
    (processQueue oracle fuel s).isProcessing = false := by
  induction fuel generalizing s with
  | zero => simpa [processQueue] using h
  | succ n ih =>
    rw [processQueue]
    rw [h]
    simp only [Bool.false_eq_true, if_false]
    cases hq : s.queue with
    | nil => exact h
    | cons p rest =>
      simp only []
      split
      · rfl
      · exact ih _ rfl

/-- Witness for C10 at a concrete input with a throwing cycle. -/
theorem processQueue_resets_flag_witness :
    (processQueue (fun _ => CycleOutcome.thrown) 2
      ⟨["a.pdf"], [], false, ["a.pdf"]⟩).isProcessing = false :=
  processQueue_resets_flag (fun _ => CycleOutcome.thrown) 2
    ⟨["a.pdf"], [], false, ["a.pdf"]⟩ rfl

lemma mem_enqueueFold (processed : List String) (f : String)
    (hf : f ∈ processed) :
    ∀ (files q : List String),
      (f ∈ enqueueFold processed q files ↔ f ∈ q) := by
  intro files
  induction files with
  | nil => intro q; simp [enqueueFold]
  | cons g gs ih =>
    intro q
    rw [enqueueFold]
    by_cases hg : (q.contains g || processed.contains g) = true
    · rw [if_pos hg]
      exact ih q
    · rw [if_neg hg]
      rw [ih (q ++ [g])]
      have hne : f ≠ g := by
        intro e
        subst e
        simp [hf] at hg
      simp [List.mem_append, hne]

/-- C1 (amended): the queue level deduplication holds: a path already in
the processed set is never re-enqueued by enqueue; and a duplicate add
event for a path whose file is no longer readable (as after a completed
move out of the upload folder) causes no upload attempt, no move and no
record. The handler itself never consults the processed set, so this is
the only dedup the add path provides. -/
theorem upload_dedup (s : QState) (files : List String) (f : String)
    (hf : f ∈ s.processedFiles) (fileName : String)
    (comp : Except String (List Nat)) (up : Except String Unit) (mOk : Bool) :
    (f ∈ (enqueue s files).queue ↔ f ∈ s.queue) ∧
    uploadAdd true fileName none comp up mOk = ⟨false, none, none, []⟩ := by
  constructor
  · exact mem_enqueueFold s.processedFiles f hf files s.queue
  · simp [uploadAdd]

/-- Concrete queue state for the C1 witness. -/
def qWitState : QState := ⟨["b.pdf"], ["a.pdf"], false, []⟩

/-- Witness for C1 at a concrete input: re-enqueueing an already processed
path leaves it out of the queue, and a duplicate event on a vanished file
performs no upload. -/
theorem upload_dedup_witness :
    "a.pdf" ∉ (enqueue qWitState ["a.pdf"]).queue ∧
    uploadAdd true "a.pdf" none (Except.ok []) (Except.ok ()) true =
      ⟨false, none, none, []⟩ := by
  have h := upload_dedup qWitState ["a.pdf"] "a.pdf" (by decide) "a.pdf"
    (Except.ok []) (Except.ok ()) true
  exact ⟨fun hm => by have := h.1.mp hm; simp [qWitState] at this, h.2⟩

/-- Concrete queue state for the C1 counterexample: a.pdf was already
handled (it is in the processed set) but its file is still present in the
upload folder, as happens when the post-upload rename fails. -/
def qCexState : QState := ⟨[], ["a.pdf"], false, ["a.pdf"]⟩

/-- C1 counterexample: a duplicate filesystem add event for the
already-handled path a.pdf does trigger a new upload attempt, because the
add handler of the upload watcher never consults the processed set:
with the file still readable the handler reads, compresses and submits it
again, refuting the claim that a duplicate add event for an
already-handled path causes no new upload attempt. -/
theorem upload_dedup_cex :
    "a.pdf" ∈ qCexState.processedFiles ∧
    "a.pdf" ∈ qCexState.fsUpload ∧
    (uploadAdd true "a.pdf" (some [7]) (Except.ok [7])
      (Except.ok ()) true).uploadCalled = true := by
  refine ⟨by decide, by decide, by decide⟩

/-- C3 (amended): routing of a document in the Linearized stage on a
well-formed recognition response, with successful renames. The handler
compares the barcode against expectedId, the filename with the first
occurrence of its extension substring removed: on a non-empty exact match
the document moves to the upload folder with a Pass record, otherwise to
the error folder with a Fail record whose message contains both the
expected and the actual identifier. -/
theorem verification_routing (fileName : String) (b : List Nat) (d : OcrData)
    (hpdf : jsEndsWithPdf fileName = true) :
    (∀ bc, d.barcode = some bc → bc ≠ "" → expectedId fileName = bc →
        linearizedAdd true fileName (some b) (Except.ok ⟨some d⟩) true =
          ⟨true, some MoveTarget.uploadFolder, [matchRec fileName bc]⟩) ∧
    ((∀ bc, d.barcode = some bc → bc = "" ∨ expectedId fileName ≠ bc) →
        linearizedAdd true fileName (some b) (Except.ok ⟨some d⟩) true =
          ⟨true, some MoveTarget.errorFolder,
            [mismatchRec fileName (expectedId fileName) (gotStr d.barcode)]⟩) := by
  constructor
  · intro bc hbc hne heq
    have hlen := length_pos_of_ne_empty bc hne
    simp [linearizedAdd, hpdf, hbc, hlen, heq]
  · intro hmis
    cases hb : d.barcode with
    | none =>
      simp [linearizedAdd, hpdf, hb]
    | some bc =>
      have hcase := hmis bc hb
      have hcond : ¬(0 < bc.length ∧ expectedId fileName = bc) := by
        rintro ⟨h1, h2⟩
        rcases hcase with he | hne2
        · subst he
          exact absurd h1 (by decide)
        · exact hne2 h2
      simp [linearizedAdd, hpdf, hb, hcond]

/-- Witness for C3 at the concrete inputs of the spec example: ABC123.pdf
with barcode ABC123 moves to the upload folder with a Pass record, and
with barcode XYZ999 moves to the error folder with a Fail record naming
both identifiers. -/
theorem verification_routing_witness :
    linearizedAdd true "ABC123.pdf" (some [0])
        (Except.ok ⟨some ⟨some "ABC123"⟩⟩) true =
      ⟨true, some MoveTarget.uploadFolder, [matchRec "ABC123.pdf" "ABC123"]⟩ ∧
    linearizedAdd true "ABC123.pdf" (some [0])
        (Except.ok ⟨some ⟨some "XYZ999"⟩⟩) true =
      ⟨true, some MoveTarget.errorFolder,
        [mismatchRec "ABC123.pdf" (expectedId "ABC123.pdf")
          (gotStr (some "XYZ999"))]⟩ := by
  constructor
  · exact (verification_routing "ABC123.pdf" [0] ⟨some "ABC123"⟩
      (by decide)).1 "ABC123" rfl (by decide) (by decide)
  · exact (verification_routing "ABC123.pdf" [0] ⟨some "XYZ999"⟩
      (by decide)).2 (by
        intro bc hbc
        cases hbc
        right
        decide)

/-- C3 counterexample: for the file A.pdf.B.pdf the filename stem with the
extension stripped is A.pdf.B, yet when the recognition response returns
exactly that identifier the handler routes the document to the error
folder, because the source removes the FIRST occurrence of the extension
substring (producing A.B.pdf) instead of stripping the trailing
extension; this refutes the claim that a returned identifier equal to the
stem is always routed to the upload folder. -/
theorem verification_routing_cex :
    specStem "A.pdf.B.pdf" = "A.pdf.B" ∧
    expectedId "A.pdf.B.pdf" = "A.B.pdf" ∧
    (linearizedAdd true "A.pdf.B.pdf" (some [0])
      (Except.ok ⟨some ⟨some "A.pdf.B"⟩⟩) true).moved =
        some MoveTarget.errorFolder := by
  refine ⟨by decide, by decide, by decide⟩

lemma movePdfs_rec_complete (rOk mOk : String → Bool) :
    ∀ (pdfs contents : List String),
      (movePdfs rOk mOk pdfs contents).aborted = false →
      ∀ f ∈ pdfs, ∃ rec ∈ (movePdfs rOk mOk pdfs contents).recs,
        rec.file = f ∧ rec.action = moveAction := by
  intro pdfs
  induction pdfs with
  | nil =>
    intro contents hab f hf
    exact absurd hf (List.not_mem_nil f)
  | cons g gs ih =>
    intro contents hab f hf
    rw [movePdfs] at hab ⊢
    by_cases hr : rOk g = false
    · rw [if_pos hr] at hab
      exact absurd hab (by simp)
    · rw [if_neg hr] at hab ⊢
      rcases List.mem_cons.mp hf with he | htail
      · subst he
        by_cases hm : mOk f
        · rw [if_pos hm]
          exact ⟨⟨"Pass", moveAction, "Moved", f⟩, List.mem_cons_self _ _,
            rfl, rfl⟩
        · rw [if_neg hm]
          exact ⟨⟨"Fail", moveAction, "Move failed", f⟩, List.mem_cons_self _ _,
            rfl, rfl⟩
      · by_cases hm : mOk g
        · rw [if_pos hm] at hab ⊢
          obtain ⟨rec, hrec, hfile, hact⟩ := ih (contents.erase g) hab f htail
          exact ⟨rec, List.mem_cons_of_mem _ hrec, hfile, hact⟩
        · rw [if_neg hm] at hab ⊢
          obtain ⟨rec, hrec, hfile, hact⟩ := ih contents hab f htail
          exact ⟨rec, List.mem_cons_of_mem _ hrec, hfile, hact⟩

/-- C5 (amended): directory removal happens only once the batch directory
is empty, after every pdf initially listed has been individually moved or
logged as failed: when handleNewFolder reports the directory removed,
nothing remains in it and every pdf of the stable listing has its own
move record (Pass or Fail); conversely, whenever the per-file loop runs
to completion (no abort), the attempted removal succeeds exactly when the
directory is then empty, so a non-empty batch whose moves all succeeded
IS removed; and an empty batch directory produces the Fail No PDFs audit
record together with removal of the empty directory, terminally. -/
theorem batch_cleanup (contents : List String) (rOk mOk : String → Bool) :
    ((handleNewFolder contents rOk mOk).removed = true →
        (handleNewFolder contents rOk mOk).remaining = [] ∧
        ∀ f ∈ contents.filter (fun g => jsEndsWithPdf g),
          ∃ rec ∈ (handleNewFolder contents rOk mOk).recs,
            rec.file = f ∧ rec.action = moveAction) ∧
    ((handleNewFolder contents rOk mOk).aborted = false →
        (handleNewFolder contents rOk mOk).removed =
          (handleNewFolder contents rOk mOk).remaining.isEmpty) ∧
    (contents = [] →
        (handleNewFolder contents rOk mOk).removed = true ∧
        (⟨"Fail", "No PDFs", "No PDF files found", ""⟩ : CsvRec) ∈
          (handleNewFolder contents rOk mOk).recs) := by
  refine ⟨?_, ?_, ?_⟩
  · intro hrem
    by_cases hp : (contents.filter (fun f => jsEndsWithPdf f)).isEmpty
    · simp only [handleNewFolder, hp, if_true] at hrem ⊢
      have hc : contents = [] := by
        cases contents with
        | nil => rfl
        | cons a l => exact absurd hrem (by simp)
      subst hc
      exact ⟨rfl, by intro f hf; exact absurd hf (by simp)⟩
    · have hp2 : (contents.filter (fun f => jsEndsWithPdf f)).isEmpty = false := by
        simpa using hp
      by_cases hab : (movePdfs rOk mOk
          (contents.filter (fun f => jsEndsWithPdf f)) contents).aborted
      · simp only [handleNewFolder, hp2, hab] at hrem
        simp at hrem
      · have hab2 : (movePdfs rOk mOk
            (contents.filter (fun f => jsEndsWithPdf f)) contents).aborted =
              false := by
          simpa using hab
        simp only [handleNewFolder, hp2, hab2] at hrem ⊢
        simp only [Bool.false_eq_true, if_false] at hrem ⊢
        constructor
        · simpa using hrem
        · intro f hf
          obtain ⟨rec, hrec, hfile, hact⟩ :=
            movePdfs_rec_complete rOk mOk
              (contents.filter (fun g => jsEndsWithPdf g)) contents hab2 f hf
          refine ⟨rec, ?_, hfile, hact⟩
          simp [List.mem_cons, List.mem_append, hrec]
  · intro habort
    by_cases hp : (contents.filter (fun f => jsEndsWithPdf f)).isEmpty
    · simp only [handleNewFolder, hp, if_true] at habort
      simp at habort
    · have hp2 : (contents.filter (fun f => jsEndsWithPdf f)).isEmpty = false := by
        simpa using hp
      by_cases hab : (movePdfs rOk mOk
          (contents.filter (fun f => jsEndsWithPdf f)) contents).aborted
      · simp only [handleNewFolder, hp2, hab] at habort
        simp at habort
      · have hab2 : (movePdfs rOk mOk
            (contents.filter (fun f => jsEndsWithPdf f)) contents).aborted =
              false := by
          simpa using hab
        simp only [handleNewFolder, hp2, hab2]
        simp only [Bool.false_eq_true, if_false]
  · intro hc
    subst hc
    constructor
    · simp [handleNewFolder]
    · simp [handleNewFolder]

/-- Oracle returning true for every file. -/
def allTrue : String → Bool := fun _ => true

/-- Oracle that makes every rename fail. -/
def noMove : String → Bool := fun _ => false

/-- Witness for C5 at concrete inputs: a one-document batch whose move
succeeds ends with the directory empty and REMOVED, and an empty batch
directory is removed. -/
theorem batch_cleanup_witness :
    (handleNewFolder ["a.pdf"] allTrue allTrue).removed = true ∧
    (handleNewFolder ["a.pdf"] allTrue allTrue).remaining = [] ∧
    (handleNewFolder [] allTrue allTrue).removed = true := by
  have hrm : (handleNewFolder ["a.pdf"] allTrue allTrue).removed = true := by
    rw [(batch_cleanup ["a.pdf"] allTrue allTrue).2.1 (by decide)]
    decide
  refine ⟨hrm, ((batch_cleanup ["a.pdf"] allTrue allTrue).1 hrm).1,
    ((batch_cleanup [] allTrue allTrue).2.2 rfl).1⟩

/-- Concrete run for the C5 counterexample: one pdf whose rename fails. -/
def folderCexRun : FolderResult := handleNewFolder ["a.pdf"] allTrue noMove

/-- C5 counterexample: in a batch with the single document a.pdf whose
move fails, the document has been individually logged as failed (its Fail
move record is in the audit trail), so by the claim the directory should
be removed; but the file is still inside, rmdirSync fails on the
non-empty directory, and the directory is not removed. This refutes the
IF direction of the claimed biconditional. -/
theorem batch_cleanup_cex :
    (⟨"Fail", moveAction, "Move failed", "a.pdf"⟩ : CsvRec) ∈
      folderCexRun.recs ∧
    folderCexRun.removed = false := by
  refine ⟨by decide, by decide⟩

lemma folderStabilizeState_fst (counts : Nat → Nat) (interval : Nat) :
    ∀ n, (folderStabilizeState counts interval n).1 = counts n := by
  intro n
  induction n with
  | zero =>
    by_cases h : counts 0 = 0 <;> simp [folderStabilizeState, h]
  | succ n ih =>
    by_cases h : counts (n + 1) = (folderStabilizeState counts interval n).1 <;>
      simp [folderStabilizeState, h]

lemma stableTimeAfter_eq_runLen (counts : Nat → Nat) (interval : Nat) :
    ∀ n, stableTimeAfter counts interval n = interval * runLen counts n := by
  intro n
  induction n with
  | zero =>
    by_cases h : counts 0 = 0 <;>
      simp [stableTimeAfter, folderStabilizeState, runLen, h]
  | succ n ih =>
    by_cases h : counts (n + 1) = counts n
    · rw [stableTimeAfter, folderStabilizeState]
      rw [folderStabilizeState_fst counts interval n]
      rw [if_pos h]
      rw [runLen, if_pos h]
      rw [stableTimeAfter] at ih
      rw [ih]
      ring
    · rw [stableTimeAfter, folderStabilizeState]
      rw [folderStabilizeState_fst counts interval n]
      rw [if_neg h]
      rw [runLen, if_neg h]
      simp

lemma runLen_le (counts : Nat → Nat) : ∀ n, runLen counts n ≤ n + 1 := by
  intro n
  induction n with
  | zero =>
    by_cases h : counts 0 = 0 <;> simp [runLen, h]
  | succ n ih =>
    by_cases h : counts (n + 1) = counts n <;> simp [runLen, h]
    omega

lemma runLen_window (counts : Nat → Nat) :
    ∀ n m, m ≤ n → n < m + runLen counts n →
      counts m = prevSample counts m := by
  intro n
  induction n with
  | zero =>
    intro m hm hlt
    interval_cases m
    by_cases h : counts 0 = 0
    · simpa [prevSample] using h
    · rw [runLen, if_neg h] at hlt
      omega
  | succ n ih =>
    intro m hm hlt
    by_cases h : counts (n + 1) = counts n
    · rw [runLen, if_pos h] at hlt
      rcases Nat.lt_or_ge m (n + 1) with hm2 | hm2
      · exact ih m (by omega) (by omega)
      · have : m = n + 1 := by omega
        subst this
        simpa [prevSample] using h
    · rw [runLen, if_neg h] at hlt
      omega

lemma runLen_ge_of_window (counts : Nat → Nat) :
    ∀ n k, k ≤ n + 1 →
      (∀ m, m ≤ n → n < m + k → counts m = prevSample counts m) →
      k ≤ runLen counts n := by
  intro n
  induction n with
  | zero =>
    intro k hk hw
    rcases Nat.eq_zero_or_pos k with hk0 | hk1
    · omega
    · have h0 : counts 0 = 0 := by
        have := hw 0 (by omega) (by omega)
        simpa [prevSample] using this
      rw [runLen, if_pos h0]
      omega
  | succ n ih =>
    intro k hk hw
    rcases Nat.eq_zero_or_pos k with hk0 | hk1
    · omega
    · have hlast : counts (n + 1) = counts n := by
        have := hw (n + 1) (by omega) (by omega)
        simpa [prevSample] using this
      rw [runLen, if_pos hlast]
      have : k - 1 ≤ runLen counts n := by
        apply ih (k - 1) (by omega)
        intro m hm hlt
        exact hw m (by omega) (by omega)
      omega

/-- C6: the stability wait of waitForFolderToStabilize reaches its firing
threshold at poll tick n exactly when some k consecutive samples ending
at tick n were each unchanged from their predecessor (the virtual
predecessor of tick 0 being the initial previousCount zero) with k times
the poll interval covering the quiet period; and when the matching-file
count changes somewhere inside every window of K consecutive ticks, the
threshold is never reached and the wait never terminates. -/
theorem folder_stability (counts : Nat → Nat) (interval dur K : Nat)
    (hi : 0 < interval) (hK : interval * (K - 1) < dur) :
    (∀ n, dur ≤ stableTimeAfter counts interval n ↔
        ∃ k, dur ≤ interval * k ∧ k ≤ n + 1 ∧
          ∀ m, m ≤ n → n < m + k → counts m = prevSample counts m) ∧
    ((∀ n, ∃ m, n ≤ m ∧ m < n + K ∧ counts m ≠ prevSample counts m) →
        ∀ n, stableTimeAfter counts interval n < dur) := by
  constructor
  · intro n
    rw [stableTimeAfter_eq_runLen]
    constructor
    · intro hdur
      exact ⟨runLen counts n, hdur, runLen_le counts n,
        fun m hm hlt => runLen_window counts n m hm hlt⟩
    · rintro ⟨k, hdk, hkn, hw⟩
      have hkr : k ≤ runLen counts n := runLen_ge_of_window counts n k hkn hw
      calc dur ≤ interval * k := hdk
        _ ≤ interval * runLen counts n := Nat.mul_le_mul_left interval hkr
  · intro hch n
    by_contra hcon
    push_neg at hcon
    rw [stableTimeAfter_eq_runLen] at hcon
    have hKr : K ≤ runLen counts n := by
      have h1 : interval * (K - 1) < interval * runLen counts n :=
        lt_of_lt_of_le hK hcon
      have h2 : K - 1 < runLen counts n := lt_of_mul_lt_mul_left h1 (by omega)
      omega
    have hKn : K ≤ n + 1 := le_trans hKr (runLen_le counts n)
    obtain ⟨m, hm1, hm2, hne⟩ := hch (n + 1 - K)
    have hmn : m ≤ n := by omega
    exact hne (runLen_window counts n m hmn (by omega))

/-- Strictly growing sample sequence: a directory receiving one more
matching file before every poll tick. -/
def idCounts : Nat → Nat := fun n => n

/-- Witness for C6 at a concrete input: with the default three-second
quiet period sampled every second, a directory whose matching-file count
grows at every tick never reaches the firing threshold, here checked at
tick seven. -/
theorem folder_stability_witness :
    stableTimeAfter idCounts 1000 7 < 3000 := by
  refine (folder_stability idCounts 1000 3000 3 (by decide) (by decide)).2
    ?_ 7
  intro n
  refine ⟨n + 1, by omega, by omega, ?_⟩
  simp [idCounts, prevSample]

lemma retryAux_spec {Er A : Type} (op : Nat → Except Er A) (base : Nat) :
    ∀ (r i : Nat), ∃ res k ds,
      retryAux op base i (r + 1) = some (res, i + k + 1, ds) ∧ k ≤ r ∧
      ds = (List.range k).map (fun j => base * (i + j + 1)) ∧
      (∀ j, j < k → isOkE (op (i + j)) = false) ∧
      ((∃ a, op (i + k) = Except.ok a ∧ res = Except.ok a) ∨
        (k = r ∧ ∃ e, op (i + k) = Except.error e ∧
          res = Except.error e)) := by
  intro r
  induction r with
  | zero =>
    intro i
    cases h : op i with
    | ok a =>
      refine ⟨Except.ok a, 0, [], ?_, Nat.le_refl 0, by simp, ?_, ?_⟩
      · simp [retryAux, h]
      · intro j hj
        omega
      · exact Or.inl ⟨a, by simpa using h, rfl⟩
    | error e =>
      refine ⟨Except.error e, 0, [], ?_, Nat.le_refl 0, by simp, ?_, ?_⟩
      · simp [retryAux, h]
      · intro j hj
        omega
      · exact Or.inr ⟨rfl, e, by simpa using h, rfl⟩
  | succ r ih =>
    intro i
    cases h : op i with
    | ok a =>
      refine ⟨Except.ok a, 0, [], ?_, by omega, by simp, ?_, ?_⟩
      · simp [retryAux, h]
      · intro j hj
        omega
      · exact Or.inl ⟨a, by simpa using h, rfl⟩
    | error e =>
      obtain ⟨res, k, ds, heq, hk, hds, hfail, hlast⟩ := ih (i + 1)
      refine ⟨res, k + 1, base * (i + 1) :: ds, ?_, by omega, ?_, ?_, ?_⟩
      · have harith : i + 1 + k + 1 = i + (k + 1) + 1 := by omega
        simp only [retryAux, h, heq]
        rw [harith]
      · have h1 : base * (i + 0 + 1) = base * (i + 1) := by norm_num
        have h2 : List.map ((fun j => base * (i + j + 1)) ∘ Nat.succ)
            (List.range k) =
            List.map (fun j => base * (i + 1 + j + 1)) (List.range k) := by
          apply List.map_congr_left
          intro j hj
          show base * (i + (j + 1) + 1) = base * (i + 1 + j + 1)
          congr 1
          omega
        rw [hds, List.range_succ_eq_map, List.map_cons, List.map_map, h1, h2]
      · intro j hj
        cases j with
        | zero =>
          simp [isOkE, h]
        | succ j =>
          have harith2 : i + (j + 1) = i + 1 + j := by omega
          rw [harith2]
          exact hfail j (by omega)
      · have harith3 : i + (k + 1) = i + 1 + k := by omega
        rw [harith3]
        rcases hlast with ⟨a2, h1, h2⟩ | ⟨hkr, e2, h1, h2⟩
        · exact Or.inl ⟨a2, h1, h2⟩
        · exact Or.inr ⟨by omega, e2, h1, h2⟩

/-- C7: the retry combinator makes at most retries attempts (the fixed
ceiling, default three), sleeps the one-based number of the just-failed
attempt times the base delay between consecutive attempts (linear
backoff), returns the first successful result, and when every attempt
errors the whole invocation fails with the final error. -/
theorem retryOperation_correct {Er A : Type} (op : Nat → Except Er A)
    (base r : Nat) :
    ∃ res n ds, retryOperation op base (r + 1) = some (res, n, ds) ∧
      n ≤ r + 1 ∧
      ds = (List.range (n - 1)).map (fun j => base * (j + 1)) ∧
      (∀ k0 a, k0 ≤ r → op k0 = Except.ok a →
        (∀ j, j < k0 → isOkE (op j) = false) →
        res = Except.ok a ∧ n = k0 + 1) ∧
      ((∀ j, j ≤ r → isOkE (op j) = false) →
        n = r + 1 ∧ ∃ e, op r = Except.error e ∧ res = Except.error e) := by
  obtain ⟨res, k, ds, heq, hk, hds, hfail, hlast⟩ := retryAux_spec op base r 0
  simp only [Nat.zero_add] at heq hds hfail hlast
  refine ⟨res, k + 1, ds, heq, by omega, ?_, ?_, ?_⟩
  · rw [hds]
    simp
  · intro k0 a hk0 hok hmin
    have hkk : k = k0 := by
      rcases Nat.lt_trichotomy k k0 with hlt | heqk | hgt
      · rcases hlast with ⟨a2, h1, _⟩ | ⟨hkr, _⟩
        · have hm := hmin k hlt
          rw [h1] at hm
          simp [isOkE] at hm
        · omega
      · exact heqk
      · have hf := hfail k0 hgt
        rw [hok] at hf
        simp [isOkE] at hf
    subst hkk
    rcases hlast with ⟨a2, h1, h2⟩ | ⟨hkr, e2, h1, h2⟩
    · rw [hok] at h1
      injection h1 with haa
      exact ⟨by rw [h2, ← haa], rfl⟩
    · rw [hok] at h1
      exact absurd h1 (by simp)
  · intro hall
    rcases hlast with ⟨a, h1, _⟩ | ⟨hkr, e, h1, h2⟩
    · have hm := hall k (by omega)
      rw [h1] at hm
      simp [isOkE] at hm
    · refine ⟨by omega, e, ?_, h2⟩
      rw [← hkr]
      exact h1

/-- Operation failing on its first attempt and succeeding on its second. -/
def wOp : Nat → Except String Nat :=
  fun j => if j = 1 then Except.ok 42 else Except.error "e"

/-- Witness for C7 at a concrete input: with three attempts and base delay
1000, an operation failing once then succeeding returns the success after
two attempts with a single backoff sleep of 1000. -/
theorem retryOperation_correct_witness :
    retryOperation wOp 1000 3 = some (Except.ok 42, 2, [1000]) := by
  obtain ⟨res, n, ds, heq, hn, hds, hfirst, hall⟩ :=
    retryOperation_correct wOp 1000 2
  obtain ⟨hres, hn2⟩ := hfirst 1 42 (by omega) rfl (by
    intro j hj
    have hj0 : j = 0 := by omega
    subst hj0
    rfl)
  rw [heq, hres, hn2, hds, hn2]
  rfl

lemma step_preserves_drainInv {a b : Sys} (h : Step a b) (ha : DrainInv a) :
    DrainInv b := by
  cases h with
  | addEvent p => exact ha
  | taskStart pre post p ht hpdf hon hfs => exact ha
  | taskSkip pre post p ht h2 => exact ha
  | taskFinish pre post p moved ht => exact ha
  | enqueueEvent files => exact ha
  | startDrain p rest hq hp =>
    have hd : a.drainInFlight = [] := ha.1 hp
    refine ⟨fun h2 => absurd h2 (by simp), ?_⟩
    show (p :: a.drainInFlight).length ≤ 1
    rw [hd]
    simp
  | finishDrain p o hd =>
    have hproc : a.isProcessing = true := by
      cases hi : a.isProcessing with
      | true => rfl
      | false =>
        rw [ha.1 hi] at hd
        exact absurd hd (by simp)
    have hmid2 :
        (applyDrainOutcome { a with drainInFlight := [] } p o).isProcessing =
          a.isProcessing := by
      cases o with
      | success mOk => rfl
      | failure mOk => rfl
      | thrown => rfl
    cases hq : (applyDrainOutcome { a with drainInFlight := [] } p o).queued with
    | nil =>
      simp only [drainNext, hq]
      exact ⟨fun _ => rfl, by simp⟩
    | cons q t =>
      simp only [drainNext, hq]
      refine ⟨fun h2 => ?_, by simp⟩
      rw [show ({ applyDrainOutcome { a with drainInFlight := [] } p o with
        drainInFlight := [q] } : Sys).isProcessing =
          (applyDrainOutcome { a with drainInFlight := [] } p o).isProcessing
        from rfl, hmid2, hproc] at h2
      exact absurd h2 (by simp)

/-- C2 (amended): in every state reachable under any interleaving of
filesystem events, watcher tasks and drain steps, the UploadQueue drain
loop has at most one upload request in flight: the isProcessing flag,
checked and set atomically before the first suspension point of
processQueue, serializes the drain. Uploads started directly by the
add handler of the upload watcher are outside this guarantee. -/
theorem single_flight (online : Bool) (fsU : List String) (s : Sys)
    (h : Reach (initSys online fsU) s) :
    s.drainInFlight.length ≤ 1 := by
  have hinv : DrainInv s := by
    induction h with
    | refl => exact ⟨fun _ => rfl, by simp [initSys]⟩
    | tail _ hbc ih => exact step_preserves_drainInv hbc ih
  exact hinv.2

/-- Witness for C2 at a concrete input: the initial state itself. -/
theorem single_flight_witness :
    (initSys true []).drainInFlight.length ≤ 1 :=
  single_flight true [] (initSys true []) Relation.ReflTransGen.refl

/-- Interleaving trace for the C2 counterexample: two documents in the
upload folder, both watcher add handlers pass their checks and start
their uploads before either finishes. -/
def cexSys0 : Sys := ⟨true, ["a.pdf", "b.pdf"], [], [], false, [], []⟩

/-- First add event spawned a handler task for a.pdf. -/
def cexSys1 : Sys :=
  ⟨true, ["a.pdf", "b.pdf"], [], [], false, [],
    [("a.pdf", WPhase.checking)]⟩

/-- The a.pdf handler started its upload. -/
def cexSys2 : Sys :=
  ⟨true, ["a.pdf", "b.pdf"], [], [], false, [],
    [("a.pdf", WPhase.uploading)]⟩

/-- Second add event spawned a handler task for b.pdf. -/
def cexSys3 : Sys :=
  ⟨true, ["a.pdf", "b.pdf"], [], [], false, [],
    [("b.pdf", WPhase.checking), ("a.pdf", WPhase.uploading)]⟩

/-- The b.pdf handler started its upload while a.pdf is still in flight. -/
def cexSys4 : Sys :=
  ⟨true, ["a.pdf", "b.pdf"], [], [], false, [],
    [("b.pdf", WPhase.uploading), ("a.pdf", WPhase.uploading)]⟩

/-- C2 counterexample: a reachable interleaving of two filesystem add
events puts two upload requests in flight at the same instant, because
the add handler of the upload watcher uploads directly without going through
the queue; this refutes the claim that at most one upload request is in
flight at every instant for every interleaving. -/
theorem single_flight_cex :
    Reach cexSys0 cexSys4 ∧ uploadsInFlight cexSys4 = 2 := by
  constructor
  · have s1 : Step cexSys0 cexSys1 := Step.addEvent cexSys0 "a.pdf"
    have s2 : Step cexSys1 cexSys2 :=
      Step.taskStart cexSys1 [] [] "a.pdf" rfl (by decide) rfl (by decide)
    have s3 : Step cexSys2 cexSys3 := Step.addEvent cexSys2 "b.pdf"
    have s4 : Step cexSys3 cexSys4 :=
      Step.taskStart cexSys3 [] [("a.pdf", WPhase.uploading)] "b.pdf" rfl
        (by decide) rfl (by decide)
    exact Relation.ReflTransGen.head s1 (Relation.ReflTransGen.head s2
      (Relation.ReflTransGen.head s3 (Relation.ReflTransGen.single s4)))
  · decide

end ZipAutomation
